import Mathlib

/-!
Shallow embedding of the green-threads runtime in src/main.rs.

The Rust program is a cooperative, single-OS-thread runtime: a fixed pool of
THREAD_SIZE stackful contexts, a round-robin scheduler (RunTime), a stack
bootstrap for freshly spawned tasks, and a register-level context switch.

Modelling decisions, function by function:
  - ThreadState, ThreadContext, Thread, RunTime mirror the Rust structs.
    The pool is a Vec of fixed length THREAD_SIZE that is never resized, so
    threads is a total function on Fin THREAD_SIZE.
  - Machine addresses (stack base, code addresses of task_return / just_ret /
    the task body) are Nats; usize arithmetic that cannot wrap in the program
    is Nat arithmetic, and the one bitmask (& !0xFF) is Nat land with the
    64-bit mask.  Hypotheses of the form x < 2^64 state the usize range.
  - The stack buffer is zero-initialised and only three words are ever
    written into it (ptr::write in spawn_task); Thread.stackWrites records
    those writes as (address, value) pairs in program order.
  - ctx_switch saves/restores hardware registers; its effect on the saved
    register files is a hardware-level effect outside the state model, so
    yield_out models the scheduler-state part (states, current) exactly and
    leaves the ctx fields untouched.  Panics (expect) are modelled as none.
  - The while-loop scan in yield_out is modelled with explicit fuel
    THREAD_SIZE; scanLoop returning none is the fuel running out, which is
    proved impossible (scanReady_ne_none), so the loop is total.
-/

def STACK_SIZE : Nat := 1024 * 1024 * 4

def THREAD_SIZE : Nat := 4

instance : NeZero THREAD_SIZE := ⟨by decide⟩

inductive ThreadState where
  | Available : ThreadState
  | Running : ThreadState
  | Ready : ThreadState
deriving DecidableEq, Fintype

/-- Callee-saved register file (struct ThreadContext, repr C).  Values are
word-sized naturals. -/
structure ThreadContext where
  rsp : Nat
  r15 : Nat
  r14 : Nat
  r13 : Nat
  r12 : Nat
  rbx : Nat
  rbp : Nat
deriving DecidableEq

/-- Default::default() zero-initialises every register. -/
def ThreadContext.zeroed : ThreadContext :=
  { rsp := 0, r15 := 0, r14 := 0, r13 := 0, r12 := 0, rbx := 0, rbp := 0 }

/-- struct Thread.  stackBase is the (pinned) address of stack[0] returned by
Box::into_raw; stackWrites is the log of ptr::write stores into the buffer. -/
structure Thread where
  id : Nat
  stackBase : Nat
  stackWrites : List (Nat × Nat)
  ctx : ThreadContext
  state : ThreadState
deriving DecidableEq

/-- Thread::new(id): fresh zeroed context, Available, empty stack. The
allocator-chosen buffer address is the parameter base. -/
def Thread.new (id base : Nat) : Thread :=
  { id := id, stackBase := base, stackWrites := [], ctx := ThreadContext.zeroed,
    state := ThreadState.Available }

/-- struct RunTime: the fixed pool and the index of the current thread. -/
structure RunTime where
  threads : Fin THREAD_SIZE → Thread
  current : Fin THREAD_SIZE

/-- RunTime::new(): THREAD_SIZE fresh threads, thread 0 marked Running as the
base thread, current = 0.  bases gives each thread's allocated stack address. -/
def RunTime.new (bases : Fin THREAD_SIZE → Nat) : RunTime :=
  let ts : Fin THREAD_SIZE → Thread := fun i => Thread.new i.val (bases i)
  { threads := Function.update ts 0 { ts 0 with state := ThreadState.Running },
    current := 0 }

/-- Link-time addresses of the two trampolines task_return and just_ret,
written onto a fresh task stack by spawn_task. -/
structure CodeEnv where
  task_return_addr : Nat
  just_ret_addr : Nat

/-- The per-slot lifecycle states, as read by the scheduler loops. -/
def RunTime.threadStates (s : RunTime) : Fin THREAD_SIZE → ThreadState :=
  fun i => (s.threads i).state

/-- The aligned stack top computed in spawn_task:
(stack.add(STACK_SIZE) as usize) & !0xFF, on 64-bit usize. -/
def stackBottom (base : Nat) : Nat :=
  (base + STACK_SIZE) &&& (2 ^ 64 - 0x100)

/-- Modelled from the spec (claim C8): the greatest multiple of a not
exceeding x, i.e. x aligned down to an a-byte boundary. -/
def greatestAligned (a x : Nat) : Nat := x - x % a

/-- The unsafe block of spawn_task plus the final state update, acting on the
chosen Available thread: write task_return at top-16, just_ret at top-24, the
task entry at top-32 (in that program order), set rsp to top-32, mark Ready. -/
def bootstrapStack (env : CodeEnv) (task : Nat) (t : Thread) : Thread :=
  let stack_bottom := stackBottom t.stackBase
  { t with
    stackWrites := [ (stack_bottom - 16, env.task_return_addr)
                   , (stack_bottom - 24, env.just_ret_addr)
                   , (stack_bottom - 32, task) ],
    ctx := { t.ctx with rsp := stack_bottom - 32 },
    state := ThreadState.Ready }

/-- self.threads.iter_mut().find(state == Available): first index in slot
order whose state is Available, as a function of the state vector only. -/
def findAvailState (st : Fin THREAD_SIZE → ThreadState) : Option (Fin THREAD_SIZE) :=
  (List.finRange THREAD_SIZE).find? (fun i => decide (st i = ThreadState.Available))

/-- The thread lookup performed by RunTime::spawn_task. -/
def RunTime.findAvailable (s : RunTime) : Option (Fin THREAD_SIZE) :=
  findAvailState s.threadStates

/-- RunTime::spawn_task: find the first Available thread (expect panics when
there is none, modelled as none), bootstrap its stack and mark it Ready. -/
def RunTime.spawn_task (env : CodeEnv) (task : Nat) (s : RunTime) : Option RunTime :=
  match s.findAvailable with
  | none => none
  | some i =>
      some { s with threads := Function.update s.threads i (bootstrapStack env task (s.threads i)) }

/-- pos += 1; if pos == THREAD_SIZE { pos = 0 } -/
def nextPos (pos : Fin THREAD_SIZE) : Fin THREAD_SIZE :=
  if h : pos.val + 1 = THREAD_SIZE then ⟨0, by decide⟩
  else ⟨pos.val + 1, by have h2 := pos.isLt; omega⟩

/-- The while-loop of RunTime::yield_out, with explicit fuel.  some (some p)
is finding a Ready slot p, some none is the return-false exit (the scan came
back to current), none is the fuel running out (proved impossible below). -/
def scanLoop (st : Fin THREAD_SIZE → ThreadState) (cur : Fin THREAD_SIZE) :
    Nat → Fin THREAD_SIZE → Option (Option (Fin THREAD_SIZE))
  | 0, _ => none
  | fuel + 1, pos =>
      if st pos = ThreadState.Ready then some (some pos)
      else
        let p := nextPos pos
        if p = cur then some none
        else scanLoop st cur fuel p

/-- The scan of yield_out, started at pos = current with fuel THREAD_SIZE
(enough for the loop to visit every slot once, see scanReady_ne_none). -/
def scanReady (st : Fin THREAD_SIZE → ThreadState) (cur : Fin THREAD_SIZE) :
    Option (Option (Fin THREAD_SIZE)) :=
  scanLoop st cur THREAD_SIZE cur

/-- Modelled from the spec (claim C1): scan circularly starting just after
current for the first Ready context; none when the scan wraps back to current
without finding one. -/
def specNext (st : Fin THREAD_SIZE → ThreadState) (cur : Fin THREAD_SIZE) :
    Option (Fin THREAD_SIZE) :=
  ((List.range (THREAD_SIZE - 1)).map
      (fun k => (⟨(cur.val + k + 1) % THREAD_SIZE, Nat.mod_lt _ (by decide)⟩ : Fin THREAD_SIZE))).find?
    (fun i => decide (st i = ThreadState.Ready))

/-- specNext on a runtime state. -/
def RunTime.specPick (s : RunTime) : Option (Fin THREAD_SIZE) :=
  specNext s.threadStates s.current

/-- The found branch of RunTime::yield_out (lines 115-134): demote the
current thread to Ready unless its state is Available, set current = pos,
mark threads[current] Running, then perform the asm context switch (a
hardware register effect, outside this state model). -/
def RunTime.switchTo (s : RunTime) (pos : Fin THREAD_SIZE) : RunTime :=
  let afterDemote :=
    if (s.threads s.current).state ≠ ThreadState.Available then
      Function.update s.threads s.current
        ({ s.threads s.current with state := ThreadState.Ready })
    else s.threads
  { threads := Function.update afterDemote pos
      ({ afterDemote pos with state := ThreadState.Running }),
    current := pos }

/-- RunTime::yield_out.  Returns the Bool result and the successor state.
The catch-all branch is the return-false exit of the scan; by
scanReady_ne_none the fuel branch of the scan is never taken. -/
def RunTime.yield_out (s : RunTime) : Bool × RunTime :=
  match scanReady s.threadStates s.current with
  | some (some pos) => (true, s.switchTo pos)
  | _ => (false, s)

/-- RunTime::run: while self.yield_out() {}.  Fuelled loop returning the
final state together with the number of successful switches performed. -/
def RunTime.runLoop : Nat → RunTime → RunTime × Nat
  | 0, s => (s, 0)
  | fuel + 1, s =>
      let r := s.yield_out
      if r.1 then
        let w := RunTime.runLoop fuel r.2
        (w.1, w.2 + 1)
      else (r.2, 0)

/-- The state update threads[current].state = Available in RunTime::ret. -/
def RunTime.markAvailable (s : RunTime) : RunTime :=
  { s with
      threads := Function.update s.threads s.current
          ({ s.threads s.current with state := ThreadState.Available }) }

/-- RunTime::ret: if current != 0, mark the current thread Available and call
yield_out (discarding its Bool result). -/
def RunTime.ret (s : RunTime) : RunTime :=
  if s.current ≠ 0 then (s.markAvailable.yield_out).2 else s

/-- task_return: dereference the process-wide RUNTIME handle (the single live
runtime, i.e. the state s) and call ret on it. -/
def task_return (s : RunTime) : RunTime := s.ret

/-- The scheduler invariant: the current thread is Running, no other thread
is Running, and whenever the base thread 0 is not current it is Ready. -/
def SchedInv (s : RunTime) : Prop :=
  (s.threads s.current).state = ThreadState.Running ∧
  (∀ i, i ≠ s.current → (s.threads i).state ≠ ThreadState.Running) ∧
  (s.current ≠ 0 → (s.threads 0).state = ThreadState.Ready)

/-- States reachable from RunTime::new through the scheduler operations. -/
inductive Reachable : RunTime → Prop where
  | new (bases : Fin THREAD_SIZE → Nat) : Reachable (RunTime.new bases)
  | spawn {s t : RunTime} (env : CodeEnv) (task : Nat) :
      Reachable s → RunTime.spawn_task env task s = some t → Reachable t
  | yield {s : RunTime} : Reachable s → Reachable s.yield_out.2
  | runs {s : RunTime} (fuel : Nat) : Reachable s → Reachable (RunTime.runLoop fuel s).1
  | taskRet {s : RunTime} : Reachable s → Reachable s.ret

/-- Concrete stack addresses for sample states: disjoint, 4096-based. -/
def bases0 : Fin THREAD_SIZE → Nat := fun i => 4096 + i.val * (STACK_SIZE + 4096)

/-- Concrete trampoline code addresses for sample states. -/
def env0 : CodeEnv := { task_return_addr := 70000, just_ret_addr := 70100 }

/-- A freshly constructed runtime: thread 0 Running, threads 1-3 Available. -/
def sample0 : RunTime := RunTime.new bases0

/-- sample0 after spawning one task: thread 1 Ready. -/
def sample1 : RunTime := (RunTime.spawn_task env0 70200 sample0).getD sample0

/-- sample1 after one yield: current = 1 Running, thread 0 Ready. -/
def sample2 : RunTime := sample1.yield_out.2

theorem scanReady_ne_none :
    ∀ (st : Fin THREAD_SIZE → ThreadState) (cur : Fin THREAD_SIZE),
      scanReady st cur ≠ none := by decide

theorem scanReady_found_ready :
    ∀ (st : Fin THREAD_SIZE → ThreadState) (cur p : Fin THREAD_SIZE),
      scanReady st cur = some (some p) → st p = ThreadState.Ready := by decide

theorem scanReady_none_iff :
    ∀ (st : Fin THREAD_SIZE → ThreadState) (cur : Fin THREAD_SIZE),
      scanReady st cur = some none ↔ ∀ i, st i ≠ ThreadState.Ready := by decide

theorem scanReady_eq_spec :
    ∀ (st : Fin THREAD_SIZE → ThreadState) (cur : Fin THREAD_SIZE),
      st cur ≠ ThreadState.Ready → scanReady st cur = some (specNext st cur) := by decide

theorem findAvailState_first :
    ∀ (st : Fin THREAD_SIZE → ThreadState) (i : Fin THREAD_SIZE),
      findAvailState st = some i →
        st i = ThreadState.Available ∧ ∀ j, j < i → st j ≠ ThreadState.Available := by
  decide

theorem findAvailState_none_iff :
    ∀ (st : Fin THREAD_SIZE → ThreadState),
      findAvailState st = none ↔ ∀ i, st i ≠ ThreadState.Available := by decide

theorem yield_out_of_found {s : RunTime} {p : Fin THREAD_SIZE}
    (h : scanReady s.threadStates s.current = some (some p)) :
    s.yield_out = (true, s.switchTo p) := by
  unfold RunTime.yield_out
  rw [h]

theorem yield_out_of_none {s : RunTime}
    (h : scanReady s.threadStates s.current = some none) :
    s.yield_out = (false, s) := by
  unfold RunTime.yield_out
  rw [h]

theorem yield_out_no_switch (s : RunTime) (h : s.yield_out.1 = false) :
    s.yield_out.2 = s := by
  rcases hscan : scanReady s.threadStates s.current with _ | o
  · exact absurd hscan (scanReady_ne_none _ _)
  · rcases o with _ | p
    · rw [yield_out_of_none hscan]
    · rw [yield_out_of_found hscan] at h
      exact Bool.noConfusion h

theorem switchTo_current (s : RunTime) (p : Fin THREAD_SIZE) :
    (s.switchTo p).current = p := rfl

theorem switchTo_target (s : RunTime) (p : Fin THREAD_SIZE) :
    ((s.switchTo p).threads p).state = ThreadState.Running := by
  simp only [RunTime.switchTo]
  rw [Function.update_same]

theorem switchTo_old_demoted (s : RunTime) (p : Fin THREAD_SIZE) (hp : p ≠ s.current)
    (hna : (s.threads s.current).state ≠ ThreadState.Available) :
    (s.switchTo p).threads s.current =
      { s.threads s.current with state := ThreadState.Ready } := by
  simp only [RunTime.switchTo]
  rw [Function.update_noteq (fun e => hp e.symm), if_pos hna, Function.update_same]

theorem switchTo_old_kept (s : RunTime) (p : Fin THREAD_SIZE) (hp : p ≠ s.current)
    (ha : (s.threads s.current).state = ThreadState.Available) :
    (s.switchTo p).threads s.current = s.threads s.current := by
  simp only [RunTime.switchTo]
  have hcond : ¬ ((s.threads s.current).state ≠ ThreadState.Available) := by simp [ha]
  rw [Function.update_noteq (fun e => hp e.symm), if_neg hcond]

theorem switchTo_frame (s : RunTime) (p : Fin THREAD_SIZE) (i : Fin THREAD_SIZE)
    (hip : i ≠ p) (hic : i ≠ s.current) :
    (s.switchTo p).threads i = s.threads i := by
  simp only [RunTime.switchTo]
  rw [Function.update_noteq hip]
  by_cases hc : (s.threads s.current).state ≠ ThreadState.Available
  · rw [if_pos hc, Function.update_noteq hic]
  · rw [if_neg hc]

theorem spawn_some_eq {env : CodeEnv} {task : Nat} {s : RunTime} {i : Fin THREAD_SIZE}
    (h : s.findAvailable = some i) :
    RunTime.spawn_task env task s =
      some { s with threads := Function.update s.threads i (bootstrapStack env task (s.threads i)) } := by
  unfold RunTime.spawn_task
  rw [h]

theorem spawn_none_eq {env : CodeEnv} {task : Nat} {s : RunTime}
    (h : s.findAvailable = none) :
    RunTime.spawn_task env task s = none := by
  unfold RunTime.spawn_task
  rw [h]

theorem schedInv_yield_general (s : RunTime)
    (h2 : ∀ i, i ≠ s.current → (s.threads i).state ≠ ThreadState.Running)
    (h3 : s.current ≠ 0 → (s.threads 0).state = ThreadState.Ready)
    (h1 : (s.threads s.current).state = ThreadState.Running ∨
          ((s.threads s.current).state = ThreadState.Available ∧ s.current ≠ 0)) :
    SchedInv s.yield_out.2 := by
  rcases hscan : scanReady s.threadStates s.current with _ | o
  · exact absurd hscan (scanReady_ne_none _ _)
  · rcases o with _ | p
    · rw [yield_out_of_none hscan]
      rcases h1 with hrun | ⟨hav, hc0⟩
      · exact ⟨hrun, h2, h3⟩
      · exact absurd (h3 hc0) ((scanReady_none_iff _ _).1 hscan 0)
    · rw [yield_out_of_found hscan]
      have hpr : (s.threads p).state = ThreadState.Ready :=
        scanReady_found_ready _ _ _ hscan
      have hpc : p ≠ s.current := by
        intro e
        rw [e] at hpr
        rcases h1 with hrun | ⟨hav, _⟩
        · rw [hrun] at hpr; exact ThreadState.noConfusion hpr
        · rw [hav] at hpr; exact ThreadState.noConfusion hpr
      refine ⟨?_, ?_, ?_⟩
      · rw [switchTo_current]
        exact switchTo_target s p
      · intro i hi
        rw [switchTo_current] at hi
        by_cases hic : i = s.current
        · subst hic
          rcases h1 with hrun | ⟨hav, _⟩
          · have hna : (s.threads s.current).state ≠ ThreadState.Available := by
              rw [hrun]; decide
            rw [switchTo_old_demoted s p hpc hna]
            exact fun e => ThreadState.noConfusion e
          · rw [switchTo_old_kept s p hpc hav, hav]
            decide
        · rw [switchTo_frame s p i hi hic]
          exact h2 i hic
      · intro hp0
        rw [switchTo_current] at hp0
        by_cases hc0 : s.current = 0
        · rcases h1 with hrun | ⟨hav, hne⟩
          · have hna : (s.threads s.current).state ≠ ThreadState.Available := by
              rw [hrun]; decide
            rw [← hc0, switchTo_old_demoted s p hpc hna]
          · exact absurd hc0 hne
        · have h0p : (0 : Fin THREAD_SIZE) ≠ p := fun e => hp0 e.symm
          have h0c : (0 : Fin THREAD_SIZE) ≠ s.current := fun e => hc0 e.symm
          rw [switchTo_frame s p 0 h0p h0c]
          exact h3 hc0

theorem schedInv_yield {s : RunTime} (h : SchedInv s) : SchedInv s.yield_out.2 :=
  schedInv_yield_general s h.2.1 h.2.2 (Or.inl h.1)

theorem schedInv_run {s : RunTime} (h : SchedInv s) (fuel : Nat) :
    SchedInv (RunTime.runLoop fuel s).1 := by
  induction fuel generalizing s with
  | zero => exact h
  | succ n ih =>
      simp only [RunTime.runLoop]
      by_cases hb : s.yield_out.1 = true
      · rw [if_pos hb]
        exact ih (schedInv_yield h)
      · rw [if_neg hb]
        exact schedInv_yield h

theorem schedInv_spawn {s t : RunTime} (env : CodeEnv) (task : Nat)
    (hInv : SchedInv s) (h : RunTime.spawn_task env task s = some t) : SchedInv t := by
  cases hf : s.findAvailable with
  | none =>
      rw [spawn_none_eq hf] at h
      exact Option.noConfusion h
  | some i =>
      rw [spawn_some_eq hf] at h
      injection h with h
      subst h
      have hi : (s.threads i).state = ThreadState.Available :=
        (findAvailState_first _ _ hf).1
      have hic : i ≠ s.current := by
        intro e
        rw [e, hInv.1] at hi
        exact ThreadState.noConfusion hi
      have hi0 : i ≠ 0 := by
        intro e
        by_cases hc : s.current = 0
        · rw [e, ← hc, hInv.1] at hi
          exact ThreadState.noConfusion hi
        · rw [e, hInv.2.2 hc] at hi
          exact ThreadState.noConfusion hi
      refine ⟨?_, ?_, ?_⟩
      · show (Function.update s.threads i (bootstrapStack env task (s.threads i)) s.current).state = _
        rw [Function.update_noteq (fun e => hic e.symm)]
        exact hInv.1
      · intro j hj
        show (Function.update s.threads i (bootstrapStack env task (s.threads i)) j).state ≠ _
        by_cases hji : j = i
        · subst hji
          rw [Function.update_same]
          exact fun e => ThreadState.noConfusion e
        · rw [Function.update_noteq hji]
          exact hInv.2.1 j hj
      · intro hc
        show (Function.update s.threads i (bootstrapStack env task (s.threads i)) 0).state = _
        rw [Function.update_noteq (fun e => hi0 e.symm)]
        exact hInv.2.2 hc

theorem schedInv_ret {s : RunTime} (h : SchedInv s) : SchedInv s.ret := by
  unfold RunTime.ret
  by_cases hc : s.current ≠ 0
  · rw [if_pos hc]
    apply schedInv_yield_general
    · intro i hi
      simp only [RunTime.markAvailable] at hi ⊢
      rw [Function.update_noteq hi]
      exact h.2.1 i hi
    · intro h0
      simp only [RunTime.markAvailable]
      rw [Function.update_noteq (fun e => hc e.symm)]
      exact h.2.2 hc
    · right
      refine ⟨?_, hc⟩
      simp only [RunTime.markAvailable]
      rw [Function.update_same]
  · rw [if_neg hc]
    exact h

theorem schedInv_new (bases : Fin THREAD_SIZE → Nat) : SchedInv (RunTime.new bases) := by
  refine ⟨?_, ?_, ?_⟩
  · simp only [RunTime.new]
    rw [Function.update_same]
  · intro i hi
    have hi0 : i ≠ (0 : Fin THREAD_SIZE) := hi
    simp only [RunTime.new]
    rw [Function.update_noteq hi0]
    exact fun e => ThreadState.noConfusion e
  · intro h0
    exact absurd rfl h0

theorem schedInv_reachable {s : RunTime} (h : Reachable s) : SchedInv s := by
  induction h with
  | new bases => exact schedInv_new bases
  | spawn env task hr hs ih => exact schedInv_spawn env task ih hs
  | yield hr ih => exact schedInv_yield ih
  | runs fuel hr ih => exact schedInv_run ih fuel
  | taskRet hr ih => exact schedInv_ret ih

theorem land_mask256 (x : Nat) (hx : x < 2 ^ 64) :
    x &&& (2 ^ 64 - 0x100) = x - x % 256 := by
  have h1 : x - x % 256 = (x >>> 8) <<< 8 := by
    rw [Nat.shiftRight_eq_div_pow, Nat.shiftLeft_eq]
    have h2 : (2 : Nat) ^ 8 = 256 := by norm_num
    rw [h2]
    omega
  have h3 : (2 : Nat) ^ 64 - 0x100 = (2 ^ 56 - 1) <<< 8 := by
    rw [Nat.shiftLeft_eq]
    norm_num
  rw [h1, h3]
  apply Nat.eq_of_testBit_eq
  intro i
  rw [Nat.testBit_and, Nat.testBit_shiftLeft, Nat.testBit_shiftLeft,
      Nat.testBit_shiftRight, Nat.testBit_two_pow_sub_one]
  by_cases h8 : 8 ≤ i
  · by_cases h64 : i < 64
    · have hi56 : i - 8 < 56 := by omega
      have h9 : 8 + (i - 8) = i := by omega
      simp [h8, hi56, h9]
    · have hxi : x.testBit i = false :=
        Nat.testBit_lt_two_pow
          (lt_of_lt_of_le hx (Nat.pow_le_pow_right (by norm_num) (by omega)))
      have hi56 : ¬ (i - 8 < 56) := by omega
      have h9 : 8 + (i - 8) = i := by omega
      simp [h8, hi56, h9, hxi]
  · simp [h8]

theorem stackBottom_facts (base : Nat) (h : base + STACK_SIZE < 2 ^ 64) :
    stackBottom base = (base + STACK_SIZE) - (base + STACK_SIZE) % 256 ∧
    STACK_SIZE - 255 ≤ stackBottom base ∧
    stackBottom base ≤ base + STACK_SIZE ∧
    stackBottom base % 256 = 0 := by
  have hchar : stackBottom base = (base + STACK_SIZE) - (base + STACK_SIZE) % 256 :=
    land_mask256 (base + STACK_SIZE) h
  refine ⟨hchar, ?_, ?_, ?_⟩ <;> rw [hchar] <;> omega

theorem reach_sample1 : Reachable sample1 :=
  Reachable.spawn env0 70200 (Reachable.new bases0) rfl

theorem reach_sample2 : Reachable sample2 :=
  Reachable.yield reach_sample1

/-- C1: on every reachable runtime state, yield_out selects exactly the
first Ready context in the circular order starting just after current
(specPick, modelled from the spec wording), and when that scan wraps back
to current without finding one it returns false without switching, leaving
the state unchanged. -/
theorem c1_yield_out_round_robin {s : RunTime} (h : Reachable s) :
    (s.specPick = none → s.yield_out = (false, s)) ∧
    (∀ p, s.specPick = some p →
      s.yield_out.1 = true ∧ s.yield_out.2 = s.switchTo p ∧
      (s.threads p).state = ThreadState.Ready) := by
  have hInv := schedInv_reachable h
  have hcur : s.threadStates s.current ≠ ThreadState.Ready := by
    show (s.threads s.current).state ≠ ThreadState.Ready
    rw [hInv.1]
    decide
  have hspec := scanReady_eq_spec s.threadStates s.current hcur
  constructor
  · intro hn
    have hn2 : specNext s.threadStates s.current = none := hn
    rw [hn2] at hspec
    exact yield_out_of_none hspec
  · intro p hp
    have hp2 : specNext s.threadStates s.current = some p := hp
    rw [hp2] at hspec
    rw [yield_out_of_found hspec]
    exact ⟨rfl, rfl, scanReady_found_ready _ _ _ hspec⟩

/-- Witness for C1 at the freshly constructed runtime sample0, where no
context is Ready: the spec scan finds nothing and yield_out returns false
with the state unchanged. -/
theorem c1_witness :
    sample0.specPick = none ∧ sample0.yield_out = (false, sample0) :=
  ⟨rfl, (c1_yield_out_round_robin (Reachable.new bases0)).1 rfl⟩

/-- C2: in every state reachable from construction through spawn_task,
yield_out, run and ret, exactly one context is Running. -/
theorem c2_exactly_one_running {s : RunTime} (h : Reachable s) :
    ∃! i, (s.threads i).state = ThreadState.Running := by
  have hInv := schedInv_reachable h
  refine ⟨s.current, hInv.1, ?_⟩
  intro y hy
  by_contra hne
  exact hInv.2.1 y hne hy

/-- Witness for C2 at the freshly constructed runtime. -/
theorem c2_witness :
    ∃! i, ((RunTime.new bases0).threads i).state = ThreadState.Running :=
  c2_exactly_one_running (Reachable.new bases0)

/-- C3: spawn_task selects the first Available context; it fails (the
expect panic, modelled as none, producing no updated state) exactly when no
context is Available; otherwise it bootstraps the selected context, marks
it Ready, and leaves every other context untouched. -/
theorem c3_spawn_task_semantics (env : CodeEnv) (task : Nat) (s : RunTime) :
    (RunTime.spawn_task env task s = none ↔
      ∀ i, (s.threads i).state ≠ ThreadState.Available) ∧
    (∀ i, s.findAvailable = some i →
      (s.threads i).state = ThreadState.Available ∧
      (∀ j, j < i → (s.threads j).state ≠ ThreadState.Available) ∧
      RunTime.spawn_task env task s =
        some { s with
               threads := Function.update s.threads i (bootstrapStack env task (s.threads i)) } ∧
      (bootstrapStack env task (s.threads i)).state = ThreadState.Ready ∧
      (∀ j, j ≠ i →
        Function.update s.threads i (bootstrapStack env task (s.threads i)) j =
          s.threads j)) := by
  constructor
  · constructor
    · intro hn
      cases hf : s.findAvailable with
      | none => exact (findAvailState_none_iff s.threadStates).1 hf
      | some i =>
          rw [spawn_some_eq hf] at hn
          exact Option.noConfusion hn
    · intro hall
      exact spawn_none_eq ((findAvailState_none_iff s.threadStates).2 hall)
  · intro i hf
    obtain ⟨h1, h2⟩ := findAvailState_first s.threadStates i hf
    exact ⟨h1, h2, spawn_some_eq hf, rfl, fun j hj => Function.update_noteq hj _ _⟩

/-- Witness for C3 at sample0, whose first Available slot is 1. -/
theorem c3_witness :
    sample0.findAvailable = some 1 ∧
    ((sample0.threads 1).state = ThreadState.Available ∧
     (∀ j, j < (1 : Fin THREAD_SIZE) → (sample0.threads j).state ≠ ThreadState.Available) ∧
     RunTime.spawn_task env0 70200 sample0 =
       some { sample0 with
              threads := Function.update sample0.threads 1 (bootstrapStack env0 70200 (sample0.threads 1)) } ∧
     (bootstrapStack env0 70200 (sample0.threads 1)).state = ThreadState.Ready ∧
     (∀ j, j ≠ (1 : Fin THREAD_SIZE) →
       Function.update sample0.threads 1 (bootstrapStack env0 70200 (sample0.threads 1)) j =
         sample0.threads j)) :=
  ⟨rfl, (c3_spawn_task_semantics env0 70200 sample0).2 1 rfl⟩

/-- C4: bootstrapping an Available context writes exactly three machine
words just below the aligned stack top, from highest address to lowest:
task_return, just_ret, the task entry point; the three slots are
consecutive words 8 bytes apart (the word at top-8 is left untouched as
padding, keeping the stack pointer 16-byte aligned), the saved stack
pointer is set to the lowest of the three addresses, and the context is
marked Ready. -/
theorem c4_spawn_stack_layout (env : CodeEnv) (task : Nat) (s : RunTime)
    (i : Fin THREAD_SIZE) (hf : s.findAvailable = some i)
    (hw : (s.threads i).stackBase + STACK_SIZE < 2 ^ 64) :
    ∃ t top, RunTime.spawn_task env task s = some t ∧
      top = stackBottom (s.threads i).stackBase ∧
      (t.threads i).stackWrites =
        [ (top - 16, env.task_return_addr), (top - 24, env.just_ret_addr), (top - 32, task) ] ∧
      top - 32 < top - 24 ∧ top - 24 < top - 16 ∧ top - 16 < top ∧
      (top - 24) + 8 = top - 16 ∧ (top - 32) + 8 = top - 24 ∧
      (t.threads i).ctx.rsp = top - 32 ∧
      (t.threads i).state = ThreadState.Ready := by
  obtain ⟨hchar, hlo, hhi, hmod⟩ := stackBottom_facts (s.threads i).stackBase hw
  have hsz : STACK_SIZE = 4194304 := by norm_num [STACK_SIZE]
  have h32 : 32 ≤ stackBottom (s.threads i).stackBase := by omega
  refine ⟨_, stackBottom (s.threads i).stackBase, spawn_some_eq hf, rfl,
    ?_, ?_, ?_, ?_, ?_, ?_, ?_, ?_⟩
  · show (Function.update s.threads i (bootstrapStack env task (s.threads i)) i).stackWrites = _
    rw [Function.update_same]
    exact rfl
  · omega
  · omega
  · omega
  · omega
  · omega
  · show (Function.update s.threads i (bootstrapStack env task (s.threads i)) i).ctx.rsp = _
    rw [Function.update_same]
    exact rfl
  · show (Function.update s.threads i (bootstrapStack env task (s.threads i)) i).state = _
    rw [Function.update_same]
    exact rfl

/-- Witness for C4 at sample0 with its first Available slot 1. -/
theorem c4_witness :
    sample0.findAvailable = some 1 ∧
    (sample0.threads 1).stackBase + STACK_SIZE < 2 ^ 64 ∧
    (∃ t top, RunTime.spawn_task env0 70200 sample0 = some t ∧
      top = stackBottom (sample0.threads 1).stackBase ∧
      (t.threads 1).stackWrites =
        [ (top - 16, env0.task_return_addr), (top - 24, env0.just_ret_addr), (top - 32, 70200) ] ∧
      top - 32 < top - 24 ∧ top - 24 < top - 16 ∧ top - 16 < top ∧
      (top - 24) + 8 = top - 16 ∧ (top - 32) + 8 = top - 24 ∧
      (t.threads 1).ctx.rsp = top - 32 ∧
      (t.threads 1).state = ThreadState.Ready) :=
  ⟨rfl, by decide, c4_spawn_stack_layout env0 70200 sample0 1 rfl (by decide)⟩

/-- C5: when yield_out has found a Ready target p, it demotes the current
context to Ready exactly when that context's state is not Available, marks
p Running, and updates current to p; the register-level switch that follows
is a hardware effect outside the state model. -/
theorem c5_switch_semantics {s : RunTime} {p : Fin THREAD_SIZE}
    (hfound : scanReady s.threadStates s.current = some (some p))
    (hp : p ≠ s.current) :
    s.yield_out.1 = true ∧
    s.yield_out.2.current = p ∧
    (s.yield_out.2.threads p).state = ThreadState.Running ∧
    ((s.threads s.current).state ≠ ThreadState.Available →
      (s.yield_out.2.threads s.current).state = ThreadState.Ready) ∧
    ((s.threads s.current).state = ThreadState.Available →
      s.yield_out.2.threads s.current = s.threads s.current) := by
  rw [yield_out_of_found hfound]
  refine ⟨rfl, switchTo_current s p, switchTo_target s p, ?_, ?_⟩
  · intro hna
    rw [switchTo_old_demoted s p hp hna]
  · intro ha
    exact switchTo_old_kept s p hp ha

/-- Witness for C5 at sample1: the scan finds slot 1 Ready while slot 0 is
Running, so slot 0 is demoted to Ready and slot 1 becomes Running. -/
theorem c5_witness :
    scanReady sample1.threadStates sample1.current = some (some 1) ∧
    (1 : Fin THREAD_SIZE) ≠ sample1.current ∧
    (sample1.yield_out.1 = true ∧
     sample1.yield_out.2.current = 1 ∧
     (sample1.yield_out.2.threads 1).state = ThreadState.Running ∧
     ((sample1.threads sample1.current).state ≠ ThreadState.Available →
       (sample1.yield_out.2.threads sample1.current).state = ThreadState.Ready) ∧
     ((sample1.threads sample1.current).state = ThreadState.Available →
       sample1.yield_out.2.threads sample1.current = sample1.threads sample1.current)) :=
  ⟨rfl, by decide, c5_switch_semantics rfl (by decide)⟩

/-- C6: on any reachable state, ret does nothing when current is slot 0;
otherwise it marks the current context Available and performs an implicit
switch (through yield_out) into the next Ready context after current, which
is found by the spec scan and left Running. -/
theorem c6_ret_semantics {s : RunTime} (h : Reachable s) :
    (s.current = 0 → s.ret = s) ∧
    (s.current ≠ 0 →
      ∃ p, s.markAvailable.specPick = some p ∧
        (s.markAvailable.threads p).state = ThreadState.Ready ∧
        s.ret = s.markAvailable.yield_out.2 ∧
        s.ret.current = p ∧
        (s.ret.threads p).state = ThreadState.Running ∧
        (s.ret.threads s.current).state = ThreadState.Available) := by
  have hInv := schedInv_reachable h
  constructor
  · intro hc
    unfold RunTime.ret
    exact if_neg (fun hne => hne hc)
  · intro hc
    have hret : s.ret = s.markAvailable.yield_out.2 := by
      unfold RunTime.ret
      exact if_pos hc
    have h0r : (s.markAvailable.threads 0).state = ThreadState.Ready := by
      simp only [RunTime.markAvailable]
      rw [Function.update_noteq (fun e => hc e.symm)]
      exact hInv.2.2 hc
    have hcurAv :
        (s.markAvailable.threads s.markAvailable.current).state = ThreadState.Available := by
      simp only [RunTime.markAvailable]
      rw [Function.update_same]
    have hcurNR :
        s.markAvailable.threadStates s.markAvailable.current ≠ ThreadState.Ready := by
      show (s.markAvailable.threads s.markAvailable.current).state ≠ ThreadState.Ready
      rw [hcurAv]
      decide
    have hspec := scanReady_eq_spec s.markAvailable.threadStates s.markAvailable.current hcurNR
    cases hsp : s.markAvailable.specPick with
    | none =>
        exfalso
        have hsp2 : specNext s.markAvailable.threadStates s.markAvailable.current = none := hsp
        rw [hsp2] at hspec
        exact (scanReady_none_iff _ _).1 hspec 0 h0r
    | some p =>
        have hsp2 : specNext s.markAvailable.threadStates s.markAvailable.current = some p := hsp
        rw [hsp2] at hspec
        have hpr : (s.markAvailable.threads p).state = ThreadState.Ready :=
          scanReady_found_ready _ _ _ hspec
        have hpc : p ≠ s.markAvailable.current := by
          intro e
          rw [e, hcurAv] at hpr
          exact ThreadState.noConfusion hpr
        refine ⟨p, rfl, hpr, hret, ?_, ?_, ?_⟩
        · rw [hret, yield_out_of_found hspec]
          exact switchTo_current _ p
        · rw [hret, yield_out_of_found hspec]
          exact switchTo_target _ p
        · rw [hret, yield_out_of_found hspec]
          show ((s.markAvailable.switchTo p).threads s.markAvailable.current).state =
            ThreadState.Available
          rw [switchTo_old_kept s.markAvailable p hpc hcurAv]
          exact hcurAv

/-- Witness for C6 at sample2 (current = slot 1, after one spawn and one
yield): ret sends control back into the Ready slot 0, leaving slot 1
Available. -/
theorem c6_witness :
    sample2.current ≠ 0 ∧
    (∃ p, sample2.markAvailable.specPick = some p ∧
      (sample2.markAvailable.threads p).state = ThreadState.Ready ∧
      sample2.ret = sample2.markAvailable.yield_out.2 ∧
      sample2.ret.current = p ∧
      (sample2.ret.threads p).state = ThreadState.Running ∧
      (sample2.ret.threads sample2.current).state = ThreadState.Available) :=
  ⟨by decide, (c6_ret_semantics reach_sample2).2 (by decide)⟩

/-- C7: the circular scan of yield_out is total (its fuel-exhaustion branch
is unreachable for every state vector and start index), and run modelled by
runLoop, invoked on a state with no Ready context, returns at once with
zero context switches performed. -/
theorem c7_scan_total_idle_run :
    (∀ (st : Fin THREAD_SIZE → ThreadState) (cur : Fin THREAD_SIZE),
      scanReady st cur ≠ none) ∧
    (∀ (s : RunTime) (fuel : Nat),
      (∀ i, (s.threads i).state ≠ ThreadState.Ready) →
      RunTime.runLoop fuel s = (s, 0)) := by
  refine ⟨scanReady_ne_none, ?_⟩
  intro s fuel hno
  have hscan : scanReady s.threadStates s.current = some none :=
    (scanReady_none_iff _ _).2 hno
  have hy : s.yield_out = (false, s) := yield_out_of_none hscan
  cases fuel with
  | zero => rfl
  | succ n =>
      unfold RunTime.runLoop
      rw [hy]
      exact rfl

/-- Witness for C7 at sample0, which has no Ready context. -/
theorem c7_witness :
    (∀ i, (sample0.threads i).state ≠ ThreadState.Ready) ∧
    RunTime.runLoop 7 sample0 = (sample0, 0) :=
  ⟨by decide, c7_scan_total_idle_run.2 sample0 7 (by decide)⟩

/-- C8 counterexample: for a stack buffer at address 4112 the aligned top
computed by spawn_task (mask & !0xFF) is 4198400, which is not the greatest
16-byte-aligned address not exceeding the buffer end 4198416. -/
theorem c8_counterexample :
    stackBottom 4112 ≠ greatestAligned 16 (4112 + STACK_SIZE) := by decide

/-- C8 amended: spawn_task aligns the buffer top down to a 256-byte
boundary (the mask & !0xFF clears the low 8 bits), i.e. to the greatest
256-byte-aligned address not exceeding the buffer end; that top is in
particular 16-byte aligned, and the saved stack pointer produced by the
bootstrap is 16-byte aligned. -/
theorem c8_bootstrap_alignment (env : CodeEnv) (task : Nat) (t : Thread)
    (h : t.stackBase + STACK_SIZE < 2 ^ 64) :
    stackBottom t.stackBase = greatestAligned 256 (t.stackBase + STACK_SIZE) ∧
    stackBottom t.stackBase % 16 = 0 ∧
    (bootstrapStack env task t).ctx.rsp % 16 = 0 := by
  obtain ⟨hchar, hlo, hhi, hmod⟩ := stackBottom_facts t.stackBase h
  have hsz : STACK_SIZE = 4194304 := by norm_num [STACK_SIZE]
  refine ⟨hchar, ?_, ?_⟩
  · omega
  · show (stackBottom t.stackBase - 32) % 16 = 0
    omega

/-- Witness for C8 amended, on a thread whose buffer sits at address 4096. -/
theorem c8_witness :
    (Thread.new 1 4096).stackBase + STACK_SIZE < 2 ^ 64 ∧
    (stackBottom (Thread.new 1 4096).stackBase =
        greatestAligned 256 ((Thread.new 1 4096).stackBase + STACK_SIZE) ∧
      stackBottom (Thread.new 1 4096).stackBase % 16 = 0 ∧
      (bootstrapStack env0 70200 (Thread.new 1 4096)).ctx.rsp % 16 = 0) :=
  ⟨by decide, c8_bootstrap_alignment env0 70200 (Thread.new 1 4096) (by decide)⟩

/-- C9: in every reachable state the driver slot 0 is Running or Ready,
never Available, so spawn_task never selects slot 0 and never bootstraps
task code onto the driver slot. -/
theorem c9_slot_zero_reserved {s : RunTime} (h : Reachable s) :
    (s.threads 0).state ≠ ThreadState.Available ∧
    s.findAvailable ≠ some 0 ∧
    (∀ env task t, RunTime.spawn_task env task s = some t → t.threads 0 = s.threads 0) := by
  have hInv := schedInv_reachable h
  have h0 : (s.threads 0).state ≠ ThreadState.Available := by
    by_cases hc : s.current = 0
    · rw [← hc, hInv.1]
      decide
    · rw [hInv.2.2 hc]
      decide
  refine ⟨h0, ?_, ?_⟩
  · intro hfa
    exact h0 ((findAvailState_first s.threadStates 0 hfa).1)
  · intro env task t ht
    cases hf : s.findAvailable with
    | none =>
        rw [spawn_none_eq hf] at ht
        exact Option.noConfusion ht
    | some i =>
        rw [spawn_some_eq hf] at ht
        injection ht with ht
        subst ht
        have hiA : (s.threads i).state = ThreadState.Available :=
          (findAvailState_first s.threadStates i hf).1
        have h0i : (0 : Fin THREAD_SIZE) ≠ i := by
          intro e
          rw [← e] at hiA
          exact h0 hiA
        show Function.update s.threads i (bootstrapStack env task (s.threads i)) 0 = s.threads 0
        rw [Function.update_noteq h0i]

/-- Witness for C9 at the freshly constructed runtime. -/
theorem c9_witness :
    ((RunTime.new bases0).threads 0).state ≠ ThreadState.Available ∧
    (RunTime.new bases0).findAvailable ≠ some 0 ∧
    (∀ env task t, RunTime.spawn_task env task (RunTime.new bases0) = some t →
      t.threads 0 = (RunTime.new bases0).threads 0) :=
  c9_slot_zero_reserved (Reachable.new bases0)

/-- C10: whenever yield_out returns false, it leaves the runtime completely
unchanged: the successor state is the argument itself, so every context
state, every saved register file, every stack write log, and current_index
are exactly as before the call. -/
theorem c10_yield_out_false_frame (s : RunTime) (h : s.yield_out.1 = false) :
    s.yield_out.2 = s ∧
    s.yield_out.2.current = s.current ∧
    (∀ i, (s.yield_out.2.threads i).state = (s.threads i).state) ∧
    (∀ i, (s.yield_out.2.threads i).ctx = (s.threads i).ctx) ∧
    (∀ i, (s.yield_out.2.threads i).stackWrites = (s.threads i).stackWrites) := by
  have he := yield_out_no_switch s h
  rw [he]
  exact ⟨rfl, rfl, fun _ => rfl, fun _ => rfl, fun _ => rfl⟩

/-- Witness for C10 at sample0, where yield_out returns false. -/
theorem c10_witness :
    sample0.yield_out.1 = false ∧
    (sample0.yield_out.2 = sample0 ∧
     sample0.yield_out.2.current = sample0.current ∧
     (∀ i, (sample0.yield_out.2.threads i).state = (sample0.threads i).state) ∧
     (∀ i, (sample0.yield_out.2.threads i).ctx = (sample0.threads i).ctx) ∧
     (∀ i, (sample0.yield_out.2.threads i).stackWrites = (sample0.threads i).stackWrites)) :=
  ⟨rfl, c10_yield_out_false_frame sample0 rfl⟩
